import Mathlib

/-!
Verification of the caption discovery-and-parsing pipeline of the
`extract-youtube-transcript` edge function
(`supabase/functions/extract-youtube-transcript/index.ts`).

The TypeScript source is shallowly embedded: JS strings become `String`,
JS numbers become exact rationals represented as an integer numerator over
a natural denominator (`JNum`; caption payload numbers are decimal
literals, exactly representable, and `Math.floor` is modelled by floor
division),
`fetch` is modelled by an oracle `World.fetch` mapping each request URL to
either a thrown network error or a response, and the `JSON.parse` builtin
is modelled by an oracle `World.json` from strings to an inductive `Json`
value (`none` models a parse exception).  Regex matching is embedded as
explicit fuel-based scanners implementing the behaviour of the concrete
regular expressions appearing in the source.
-/

set_option maxRecDepth 40000

namespace YT

/-! ### JS string helpers -/

/-- Occurrence split: `splitFirst pat s = some (before, after)` where `after`
is the suffix immediately following the first occurrence of `pat` in `s`.
Models the position found by an unanchored regex/`indexOf` search. -/
def splitFirst (pat : List Char) : List Char → Option (List Char × List Char)
  | [] => if pat.isPrefixOf [] then some ([], []) else none
  | c :: rest =>
    if pat.isPrefixOf (c :: rest) then some ([], (c :: rest).drop pat.length)
    else (splitFirst pat rest).map (fun p => (c :: p.1, p.2))

/-- JS `String.prototype.includes`. -/
def hasSubstr (s pat : String) : Bool := (splitFirst pat.data s.data).isSome

/-- JS `String.prototype.trim` (restricted to ASCII whitespace). -/
def jsTrim (s : String) : String :=
  String.mk
    (((s.data.dropWhile Char.isWhitespace).reverse.dropWhile Char.isWhitespace).reverse)

/-- `s.startsWith(pre)`. -/
def startsWithStr (s pre : String) : Bool := pre.data.isPrefixOf s.data

/-- `parts.join(' ')`. -/
def joinSpace : List String → String
  | [] => ""
  | [x] => x
  | x :: rest => x ++ " " ++ joinSpace rest

/-- One global literal replacement (`s.replace(/lit/g, rep)`), leftmost,
non-overlapping. -/
def replaceAllAux (pat rep : List Char) : Nat → List Char → List Char
  | 0, s => s
  | _ + 1, [] => []
  | fuel + 1, s@(c :: rest) =>
    if pat ≠ [] ∧ pat.isPrefixOf s then
      rep ++ replaceAllAux pat rep fuel (s.drop pat.length)
    else c :: replaceAllAux pat rep fuel rest

def replaceAll (s pat rep : String) : String :=
  String.mk (replaceAllAux pat.data rep.data s.data.length s.data)

/-- Split on a separator character (`s.split(sep)` for one-character
separators; empty pieces are kept, as in JS). -/
def splitOnChar (sep : Char) : List Char → List String
  | [] => [""]
  | c :: rest =>
    if c = sep then "" :: splitOnChar sep rest
    else
      match splitOnChar sep rest with
      | [] => [String.mk [c]]
      | piece :: more => (String.mk [c] ++ piece) :: more

/-- Strip `/<[^>]*>/g`: every substring from a `<` through the next `>` is
removed; a `<` with no following `>` is kept (the regex does not match). -/
def stripTagsAux : Nat → List Char → List Char
  | 0, s => s
  | _ + 1, [] => []
  | fuel + 1, c :: rest =>
    if c = '<' then
      match splitFirst ['>'] rest with
      | some p => stripTagsAux fuel p.2
      | none => c :: rest
    else c :: stripTagsAux fuel rest

def stripTags (s : String) : String := String.mk (stripTagsAux s.data.length s.data)

/-- The chained entity replacements of the XML parser
(`&amp; &lt; &gt; &quot; &#39; &apos;`), applied in source order. -/
def decodeEntities (s : String) : String :=
  replaceAll (replaceAll (replaceAll (replaceAll (replaceAll (replaceAll
    s "&amp;" "&") "&lt;" "<") "&gt;" ">") "&quot;" "\"") "&#39;" "'") "&apos;" "'"

/-! ### Exact JS numbers -/

/-- An exact rational as numerator over (positive) denominator, kept
unreduced so that every arithmetic operation is structurally computable.
Models the numeric values flowing through the parsers. -/
structure JNum where
  num : ℤ
  den : ℕ
deriving DecidableEq

namespace JNum

def ofInt (n : ℤ) : JNum := ⟨n, 1⟩

def add (a b : JNum) : JNum := ⟨a.num * b.den + b.num * a.den, a.den * b.den⟩

def sub (a b : JNum) : JNum := ⟨a.num * b.den - b.num * a.den, a.den * b.den⟩

def neg (a : JNum) : JNum := ⟨-a.num, a.den⟩

/-- Multiply by a natural constant. -/
def mulN (a : JNum) (n : ℕ) : JNum := ⟨a.num * n, a.den⟩

/-- Divide by a natural constant. -/
def divN (a : JNum) (n : ℕ) : JNum := ⟨a.num, a.den * n⟩

/-- `Math.floor` (floor division of the components). -/
def floor (a : JNum) : ℤ := a.num.fdiv a.den

/-- Scale by a power of ten (for `parseFloat` exponents). -/
def mulPow10 (a : JNum) : ℤ → JNum
  | .ofNat e => a.mulN (10 ^ e)
  | .negSucc e => a.divN (10 ^ (e + 1))

def isZero (a : JNum) : Bool := a.num == 0

/-- Value ordering (cross multiplication; denominators are positive for
every number the embedding builds). -/
def le (a b : JNum) : Prop := a.num * b.den ≤ b.num * a.den

instance : DecidableRel le := fun a b =>
  inferInstanceAs (Decidable (a.num * b.den ≤ b.num * a.den))

end JNum

/-! ### JS number parsing (`parseFloat`, `parseInt`, `Number`) -/

def digitsToNat (ds : List Char) : Nat :=
  ds.foldl (fun acc c => acc * 10 + (c.toNat - '0'.toNat)) 0

/-- JS `parseFloat`: skip leading whitespace, optional sign, a decimal
mantissa (digits, optional fraction) and an optional exponent; trailing
garbage is ignored.  `none` models `NaN`. -/
def jsParseFloatQ (s : String) : Option JNum :=
  let cs := s.data.dropWhile Char.isWhitespace
  let (neg, cs) : Bool × List Char :=
    match cs with
    | '-' :: rest => (true, rest)
    | '+' :: rest => (false, rest)
    | _ => (false, cs)
  let intPart := cs.takeWhile Char.isDigit
  let cs1 := cs.drop intPart.length
  let (fracPart, cs2) : List Char × List Char :=
    match cs1 with
    | '.' :: rest => (rest.takeWhile Char.isDigit, rest.drop (rest.takeWhile Char.isDigit).length)
    | _ => ([], cs1)
  if intPart = [] ∧ fracPart = [] then none
  else
    let mant : JNum :=
      (JNum.ofInt (digitsToNat intPart)).add
        ⟨(digitsToNat fracPart : ℤ), 10 ^ fracPart.length⟩
    let expo : ℤ :=
      match cs2 with
      | 'e' :: rest => jsExpoOf rest
      | 'E' :: rest => jsExpoOf rest
      | _ => 0
    some ((if neg then mant.neg else mant).mulPow10 expo)
where
  jsExpoOf (rest : List Char) : ℤ :=
    let (esgn, rest) : ℤ × List Char :=
      match rest with
      | '-' :: r => (-1, r)
      | '+' :: r => (1, r)
      | _ => (1, rest)
    let eds := rest.takeWhile Char.isDigit
    if eds = [] then 0 else esgn * (digitsToNat eds : ℤ)

/-- JS `parseInt(s, 10)`: skip whitespace, optional sign, leading digits.
`none` models `NaN`. -/
def jsParseInt (s : String) : Option ℤ :=
  let cs := s.data.dropWhile Char.isWhitespace
  let (sgn, cs) : ℤ × List Char :=
    match cs with
    | '-' :: rest => (-1, rest)
    | '+' :: rest => (1, rest)
    | _ => (1, cs)
  let ds := cs.takeWhile Char.isDigit
  if ds = [] then none else some (sgn * (digitsToNat ds : ℤ))

/-! ### Transcript data model -/

structure TimelineItem where
  time : String
  text : String
deriving DecidableEq, Repr

structure Transcript where
  text : String
  timeline : List TimelineItem
deriving DecidableEq, Repr

/-- `n.toString().padStart(2, '0')`. -/
def pad2 (n : ℤ) : String :=
  let s := toString n
  if s.length ≤ 1 then "0" ++ s else s

/-- The shared timestamp rendering of the XML and JSON3 parsers:
`hours = floor(q/3600)`, `mins = floor((q % 3600)/60)`, `secs = floor(q % 60)`,
rendered `h:mm:ss` when `hours > 0`, else `m:ss` (start offsets are
nonnegative, so JS `%` agrees with the subtraction form used here). -/
def fmtTime (q : JNum) : String :=
  let hours : ℤ := (q.divN 3600).floor
  let mins : ℤ := ((q.sub (.ofInt (3600 * hours))).divN 60).floor
  let secs : ℤ := (q.sub (.ofInt (60 * (q.divN 60).floor))).floor
  if hours > 0 then toString hours ++ ":" ++ pad2 mins ++ ":" ++ pad2 secs
  else toString mins ++ ":" ++ pad2 secs

/-- Timestamp rendering applied to a possibly-NaN (`none`) JS number. -/
def fmtTimeOpt : Option JNum → String
  | some q => fmtTime q
  | none => "NaN:NaN"

/-! ### The timed-XML parser (`parseXmlTranscript`) -/

/-- Complete one match of `/<text[^>]*start="([^"]*)"[^>]*>([\s\S]*?)<\/text>/`
from the position just after a `<text` literal: scan (not crossing `>`) for
`start="`, capture up to the closing quote, skip to the tag-closing `>`,
then take everything up to the first `</text>`.  Returns the two captures
and the remainder of the input. -/
def xmlTagRest (after : List Char) : Option (String × String × List Char) :=
  match findAttr after.length after with
  | none => none
  | some afterAttr =>
    let c1 := afterAttr.takeWhile (· ≠ '"')
    match afterAttr.drop c1.length with
    | '"' :: after1 =>
      let skipped := after1.dropWhile (· ≠ '>')
      match skipped with
      | '>' :: after2 =>
        match splitFirst "</text>".data after2 with
        | some p => some (String.mk c1, String.mk p.1, p.2)
        | none => none
      | _ => none
    | _ => none
where
  findAttr : Nat → List Char → Option (List Char)
    | 0, _ => none
    | _ + 1, [] => none
    | fuel + 1, s@(c :: rest) =>
      if "start=\"".data.isPrefixOf s then some (s.drop 7)
      else if c = '>' then none
      else findAttr fuel rest

/-- All matches of the `<text ... start="...">...</text>` regex, as
`(start-attribute, element-content)` pairs, in input order. -/
def xmlMatchesAux : Nat → List Char → List (String × String)
  | 0, _ => []
  | fuel + 1, s =>
    match splitFirst "<text".data s with
    | none => []
    | some p =>
      match xmlTagRest p.2 with
      | some r => (r.1, r.2.1) :: xmlMatchesAux fuel r.2.2
      | none => xmlMatchesAux fuel p.2

def xmlMatches (xml : String) : List (String × String) :=
  xmlMatchesAux xml.data.length xml.data

/-- Per-match text normalization: decode entities, strip nested tags, trim. -/
def xmlNormText (inner : String) : String := jsTrim (stripTags (decodeEntities inner))

/-- The segments the XML parser keeps: matches whose normalized text is
non-empty, paired as `(start-attribute, normalized text)`. -/
def xmlSegs (xml : String) : List (String × String) :=
  ((xmlMatches xml).filter (fun m => xmlNormText m.2 != "")).map
    (fun m => (m.1, xmlNormText m.2))

/-- `parseXmlTranscript` (index.ts lines 295-331). -/
def parseXmlTranscript (xml : String) : Transcript :=
  if ¬ hasSubstr xml "<text" then ⟨"", []⟩
  else
    let segs := xmlSegs xml
    ⟨joinSpace (segs.map (·.2)),
     segs.map (fun s => ⟨fmtTimeOpt (jsParseFloatQ s.1), s.2⟩)⟩

/-! ### JSON values (the result of the external `JSON.parse` builtin) -/

inductive Json where
  | null
  | bool (b : Bool)
  | num (q : JNum)
  | str (s : String)
  | arr (elems : List Json)
  | obj (fields : List (String × Json))

/-- JS property read `j[k]`: `none` models `undefined` (including reads on
non-object values, which yield `undefined` rather than throwing, except on
`null`, handled at use sites).  Duplicate keys: last one wins, as in
`JSON.parse`. -/
def jget (j : Json) (k : String) : Option Json :=
  match j with
  | .obj fs => fs.foldl (fun acc f => if f.1 == k then some f.2 else acc) none
  | _ => none

/-- JS truthiness of a JSON value (`undefined` is handled at use sites). -/
def jsTruthy : Json → Bool
  | .null => false
  | .bool b => b
  | .num q => !q.isZero
  | .str s => s != ""
  | .arr _ => true
  | .obj _ => true

/-- JS `Number(s)`: the whole (trimmed) string must be a decimal numeral;
the empty string is `0`; `none` models `NaN`. -/
def jsStrToNum (s : String) : Option JNum :=
  let t := jsTrim s
  if t == "" then some (.ofInt 0)
  else
    match jsParseFloatQ t with
    | some q => if jsFloatConsumesAll t then some q else none
    | none => none
where
  /-- whether `parseFloat` consumes the whole string (so `Number` agrees). -/
  jsFloatConsumesAll (t : String) : Bool :=
    let cs := t.data
    let cs := match cs with
      | '-' :: r => r
      | '+' :: r => r
      | _ => cs
    let cs := cs.dropWhile Char.isDigit
    let cs := match cs with
      | '.' :: r => r.dropWhile Char.isDigit
      | _ => cs
    let cs := match cs with
      | 'e' :: r | 'E' :: r =>
        let r := match r with
          | '-' :: r2 => r2
          | '+' :: r2 => r2
          | _ => r
        r.dropWhile Char.isDigit
      | _ => cs
    cs.isEmpty

/-- Numeric coercion of a JSON value (`x / 1000` and similar):
`none` models `NaN`.  Deeply nested array/object coercions (which go
through string conversion in JS) are modelled only one level deep; they
cannot occur in caption payloads. -/
def jsToNumQ : Json → Option JNum
  | .null => some (.ofInt 0)
  | .bool b => some (.ofInt (if b then 1 else 0))
  | .num q => some q
  | .str s => jsStrToNum s
  | .arr [] => some (.ofInt 0)
  | .arr [.num q] => some q
  | .arr [.str s] => jsStrToNum s
  | .arr [.null] => some (.ofInt 0)
  | .arr _ => none
  | .obj _ => none

/-! ### The event-JSON parser (`parseJson3Transcript`) -/

/-- The inner `for (const seg of event.segs)` loop: collect the trimmed
`utf8` fields of the truthy-`utf8` segments.  `none` models a thrown JS
exception (property access on `null`, or `.trim()` on a truthy
non-string), which the parser's `catch` turns into an empty result. -/
def segsPieces : List Json → Option (List String)
  | [] => some []
  | s :: rest =>
    match s with
    | .null => none
    | _ =>
      match jget s "utf8" with
      | some (.str t) =>
        if t != "" then (segsPieces rest).map (fun ps => jsTrim t :: ps)
        else segsPieces rest
      | some v => if jsTruthy v then none else segsPieces rest
      | none => segsPieces rest

/-- One iteration of the `for (const event of data.events)` loop.
Outer `none` models a thrown exception; `some none` means the event is
skipped; `some (some (t, ps))` records the `tStartMs` value and the
collected utf8 pieces of an event passing the
`event.segs && event.tStartMs !== undefined` guard. -/
def json3Event (e : Json) : Option (Option (Json × List String)) :=
  match e with
  | .null => none
  | _ =>
    let segs? := jget e "segs"
    let ts? := jget e "tStartMs"
    if (segs?.map jsTruthy).getD false && ts?.isSome then
      match segs? with
      | some (.arr ss) =>
        match segsPieces ss with
        | none => none
        | some ps => some (some (ts?.getD .null, ps))
      | _ => none
    else some none

/-- All records produced by the events loop (`none` models a thrown
exception anywhere in the loop, which discards all partial output). -/
def json3Records : List Json → Option (List (Json × List String))
  | [] => some []
  | e :: rest =>
    match json3Event e with
    | none => none
    | some none => json3Records rest
    | some (some r) => (json3Records rest).map (fun l => r :: l)

/-- `data.events` when it is an array; `none` otherwise (a falsy `events`
skips the loop and a truthy non-array makes `for...of` throw — both
produce the empty transcript). -/
def jsonEventsArr (j : Json) : Option (List Json) :=
  match jget j "events" with
  | some (.arr evs) => some evs
  | _ => none

/-- The event records the JSON3 parser keeps: those with at least one
collected utf8 piece. -/
def json3Kept (evs : List Json) : List (Json × List String) :=
  match json3Records evs with
  | none => []
  | some recs => recs.filter (fun r => !r.2.isEmpty)

/-- `parseJson3Transcript` (index.ts lines 333-373).  The input is the
result of the external `JSON.parse` on the payload (`none` models a parse
exception, caught by the parser). -/
def parseJson3Transcript (j? : Option Json) : Transcript :=
  match j? with
  | none => ⟨"", []⟩
  | some data =>
    match jsonEventsArr data with
    | none => ⟨"", []⟩
    | some evs =>
      match json3Records evs with
      | none => ⟨"", []⟩
      | some recs =>
        let segs := (recs.filter (fun r => !r.2.isEmpty)).map
          (fun r => (r.1, String.join r.2))
        ⟨joinSpace (segs.map (·.2)),
         segs.map (fun s =>
           ⟨fmtTimeOpt ((jsToNumQ s.1).map (JNum.divN · 1000)), s.2⟩)⟩

/-! ### The cue-VTT parser (`parseVttTranscript`) -/

/-- Parse an `hh:mm:ss.mmm` timecode at the current position. -/
def tcLong : List Char → Option (List Char × List Char)
  | d1 :: d2 :: ':' :: d3 :: d4 :: ':' :: d5 :: d6 :: '.' :: d7 :: d8 :: d9 :: rest =>
    if [d1, d2, d3, d4, d5, d6, d7, d8, d9].all Char.isDigit then
      some ([d1, d2, ':', d3, d4, ':', d5, d6, '.', d7, d8, d9], rest)
    else none
  | _ => none

/-- Parse an `mm:ss.mmm` timecode at the current position. -/
def tcShort : List Char → Option (List Char × List Char)
  | d1 :: d2 :: ':' :: d3 :: d4 :: '.' :: d5 :: d6 :: d7 :: rest =>
    if [d1, d2, d3, d4, d5, d6, d7].all Char.isDigit then
      some ([d1, d2, ':', d3, d4, '.', d5, d6, d7], rest)
    else none
  | _ => none

/-- Parse `\s+-->\s+` at the current position. -/
def tcArrow (s : List Char) : Option (List Char) :=
  let ws := s.takeWhile Char.isWhitespace
  if ws.isEmpty then none
  else
    match s.drop ws.length with
    | '-' :: '-' :: '>' :: rest =>
      let ws2 := rest.takeWhile Char.isWhitespace
      if ws2.isEmpty then none else some (rest.drop ws2.length)
    | _ => none

/-- One attempt of the cue-timecode regex
`(\d{2}:\d{2}:\d{2}\.\d{3}|\d{2}:\d{2}\.\d{3})\s+-->\s+(...)` at a fixed
position (alternatives in regex order). -/
def tcAttemptAt (s : List Char) : Option (List Char) :=
  (tcFull tcLong s).orElse (fun _ => tcFull tcShort s)
where
  tcFull (alt : List Char → Option (List Char × List Char)) (s : List Char) :
      Option (List Char) :=
    match alt s with
    | none => none
    | some (c1, r1) =>
      match tcArrow r1 with
      | none => none
      | some r2 =>
        match (tcLong r2).orElse (fun _ => tcShort r2) with
        | none => none
        | some _ => some c1

/-- Leftmost match of the cue-timecode regex in a line; returns the first
capture (the start timecode). -/
def vttTimeMatchAux : Nat → List Char → Option String
  | 0, _ => none
  | _ + 1, [] => none
  | fuel + 1, s@(_ :: tail) =>
    match tcAttemptAt s with
    | some c1 => some (String.mk c1)
    | none => vttTimeMatchAux fuel tail

def vttTimeMatch (line : String) : Option String :=
  vttTimeMatchAux (line.data.length + 1) line.data

/-- `vtt.split(/\r?\n/)`. -/
def splitLines (s : String) : List String :=
  (splitOnChar '\n' s.data).map (fun l =>
    match l.data.reverse with
    | '\r' :: body => String.mk body.reverse
    | _ => l)

/-- `/^\d+$/` on the trimmed line (cue numbering). -/
def isDigitLine (l : String) : Bool :=
  let t := jsTrim l
  t != "" && t.data.all Char.isDigit

/-- The VTT parser's `toDisplay`: split the start timecode on `:`;
three components render `parseInt(h):mm:pad2(floor(parseFloat(s)))`,
two components render `parseInt(m):pad2(floor(parseFloat(s)))`. -/
def toDisplay (t : String) : String :=
  match splitOnChar ':' t.data with
  | [h, m, s] =>
    intRaw (jsParseInt h) ++ ":" ++ padStr2 m ++ ":" ++
      secStr ((jsParseFloatQ s).map JNum.floor)
  | segs =>
    let m := segs.headD ""
    let s := (segs.drop 1).headD ""
    intRaw (jsParseInt m) ++ ":" ++ secStr ((jsParseFloatQ s).map JNum.floor)
where
  /-- `${parseInt(x,10)}` (unpadded; `NaN` renders as such). -/
  intRaw : Option ℤ → String
    | some n => toString n
    | none => "NaN"
  /-- `Math.floor(parseFloat(s)).toString().padStart(2,'0')`. -/
  secStr : Option ℤ → String
    | some n => pad2 n
    | none => "NaN"
  padStr2 (s : String) : String := if s.length ≤ 1 then "0" ++ s else s

/-- The main cue-scanning loop of the VTT parser, collecting every matched
cue as `(start-timecode, normalized cue text)` — including cues whose
normalized text is empty (the parser drops those afterwards). -/
def vttCuesAux : Nat → List String → List (String × String)
  | 0, _ => []
  | _ + 1, [] => []
  | fuel + 1, l :: rest =>
    if isDigitLine l then vttCuesAux fuel rest
    else
      match vttTimeMatch l with
      | some start =>
        let cueLines := rest.takeWhile (fun x => jsTrim x != "")
        let rest' := rest.drop cueLines.length
        let text := jsTrim (stripTags (joinSpace (cueLines.map jsTrim)))
        (start, text) :: vttCuesAux fuel (rest'.drop 1)
      | none => vttCuesAux fuel rest

/-- All cues matched in a VTT payload, in payload order. -/
def vttCuesAll (vtt : String) : List (String × String) :=
  let lines := splitLines vtt
  vttCuesAux (lines.length + 1) lines

/-- `parseVttTranscript` (index.ts lines 375-417). -/
def parseVttTranscript (vtt : String) : Transcript :=
  if vtt == "" || !hasSubstr vtt "WEBVTT" then ⟨"", []⟩
  else
    let cues := (vttCuesAll vtt).filter (fun c => c.2 != "")
    ⟨joinSpace (cues.map (·.2)),
     cues.map (fun c => ⟨toDisplay c.1, c.2⟩)⟩

/-! ### Caption tracks and `selectTrack` -/

/-- A caption-track object from the player response.  String fields default
to `""` for absent/undefined (all uses in the source only test truthiness
or compare against string constants, so this is observationally faithful). -/
structure CaptionTrack where
  languageCode : String
  vssId : String
  kind : String
  baseUrl : String
deriving DecidableEq

/-- `t.languageCode || t.vssId` (JS falsy-or on the two string fields). -/
def effLang (t : CaptionTrack) : String :=
  if t.languageCode != "" then t.languageCode else t.vssId

/-- `isEn` (index.ts line 124): truthy and (`=== 'en'`, `startsWith('en')`
or `includes('.en')`). -/
def isEn (code : String) : Bool :=
  code != "" && (code == "en" || startsWithStr code "en" || hasSubstr code ".en")

def isEnTrack (t : CaptionTrack) : Bool := isEn (effLang t)

def isASR (t : CaptionTrack) : Bool := t.kind == "asr"

def enASR (t : CaptionTrack) : Bool := isEnTrack t && isASR t

def enManual (t : CaptionTrack) : Bool := isEnTrack t && !isASR t

/-- `selectTrack` (index.ts lines 123-129):
`englishASR || englishManual || anyASR || tracks[0]`
(`none` models `undefined`, which only arises on an empty list). -/
def selectTrack (tracks : List CaptionTrack) : Option CaptionTrack :=
  ((tracks.find? enASR).orElse (fun _ =>
    (tracks.find? enManual).orElse (fun _ =>
      (tracks.find? isASR).orElse (fun _ => tracks.head?))))

/-! ### `extractVideoId` -/

def idAlphabet (c : Char) : Bool := c.isAlpha || c.isDigit || c == '_' || c == '-'

def badIdChar (c : Char) : Bool := c == '&' || c == '\n' || c == '?' || c == '#'

/-- The recognized URL shapes of the first pattern
`/(?:youtube\.com\/watch\?v=|youtu\.be\/|youtube\.com\/embed\/)([^&\n?#]+)/`. -/
def urlShapes : List String :=
  ["youtube.com/watch?v=", "youtu.be/", "youtube.com/embed/"]

/-- First URL-shape literal matching at the current position (at most one
can match, since no shape is a prefix of another). -/
def shapeAt (s : List Char) : Option (List Char) :=
  match urlShapes.find? (fun p => p.data.isPrefixOf s) with
  | some p => some (s.drop p.length)
  | none => none

/-- Leftmost match of the first `extractVideoId` pattern: a recognized URL
shape followed by at least one character outside `&`, newline, `?`, `#`;
the capture is the maximal such run. -/
def urlPatternAux : Nat → List Char → Option String
  | 0, _ => none
  | _ + 1, [] => none
  | fuel + 1, s@(_ :: tail) =>
    match shapeAt s with
    | some rest =>
      let run := rest.takeWhile (fun c => !badIdChar c)
      if run.isEmpty then urlPatternAux fuel tail else some (String.mk run)
    | none => urlPatternAux fuel tail

def urlPatternId (url : String) : Option String :=
  urlPatternAux (url.data.length + 1) url.data

/-- The second pattern `/^([a-zA-Z0-9_-]{11})$/`. -/
def bareId (url : String) : Option String :=
  if url.length == 11 && url.data.all idAlphabet then some url else none

/-- `extractVideoId` (index.ts lines 53-65): the two patterns in order. -/
def extractVideoId (url : String) : Option String :=
  (urlPatternId url).orElse (fun _ => bareId url)

/-! ### The fetch world and URL construction -/

/-- Outcome of one `fetch`: a thrown network error, or a response with its
`ok` flag and body text. -/
inductive FetchResult where
  | thrown
  | resp (ok : Bool) (body : String)
deriving DecidableEq

/-- The external collaborators of one pipeline run: the `fetch` primitive
(keyed by request URL) and the `JSON.parse` builtin (`none` models a parse
exception). -/
structure World where
  fetch : String → FetchResult
  json : String → Option Json

def watchUrl (videoId : String) : String :=
  "https://www.youtube.com/watch?v=" ++ videoId

def playerUrl (apiKey : String) : String :=
  "https://www.youtube.com/youtubei/v1/player?key=" ++ apiKey

def listUrl (videoId : String) : String :=
  "https://www.youtube.com/api/timedtext?type=list&v=" ++ videoId

/-- `html.match(/"INNERTUBE_API_KEY":"([^"]+)"/)` and friends: first
occurrence of the literal prefix followed by a non-empty run of
non-quote characters and a closing quote. -/
def captureAfterAux (pat : List Char) : Nat → List Char → Option String
  | 0, _ => none
  | fuel + 1, s =>
    match splitFirst pat s with
    | none => none
    | some p =>
      let run := p.2.takeWhile (· ≠ '"')
      if !run.isEmpty && !(p.2.drop run.length).isEmpty then some (String.mk run)
      else captureAfterAux pat fuel p.2

def captureAfter (pat s : String) : Option String :=
  captureAfterAux pat.data (s.data.length + 1) s.data

def captureKey (html : String) : Option String :=
  captureAfter "\"INNERTUBE_API_KEY\":\"" html

/-- `html.match(/"INNERTUBE_CLIENT_VERSION":"([^"]+)"/) ||
html.match(/"clientVersion":"([^"]+)"/)`. -/
def captureClientVersion (html : String) : Option String :=
  (captureAfter "\"INNERTUBE_CLIENT_VERSION\":\"" html).orElse
    (fun _ => captureAfter "\"clientVersion\":\"" html)

/-- `pdata?.captions?.playerCaptionsTracklistRenderer?.captionTracks`,
`some` exactly when the chain lands on an array (the `|| []` default and
non-array truthy values both end with the strategy skipped). -/
def playerTracks (pdata : Json) : Option (List Json) :=
  match (jget pdata "captions").bind
      (fun c => (jget c "playerCaptionsTracklistRenderer").bind
        (fun r => jget r "captionTracks")) with
  | some (.arr l) => some l
  | _ => none

/-- Read a track object's string fields (absent fields default to `""`). -/
def toTrack (j : Json) : CaptionTrack :=
  ⟨strField j "languageCode", strField j "vssId", strField j "kind",
   strField j "baseUrl"⟩
where
  strField (j : Json) (k : String) : String :=
    match jget j k with
    | some (.str s) => s
    | _ => ""

/-- `/([?&])tlang=/.test(u)` and the `fmt` analogue. -/
def hasUrlParam (u p : String) : Bool :=
  hasSubstr u ("?" ++ p ++ "=") || hasSubstr u ("&" ++ p ++ "=")

/-- Caption-URL adjustment (index.ts lines 135-141): append `tlang=en` for
non-English tracks, then `&fmt=srv3` when no `fmt` parameter is present. -/
def adjustCaptionUrl (chosen : CaptionTrack) : String :=
  let langCode :=
    if chosen.languageCode != "" then chosen.languageCode
    else if chosen.vssId != "" then chosen.vssId else ""
  let isEnglish := hasSubstr langCode "en"
  let u := chosen.baseUrl
  let u :=
    if !isEnglish && !hasUrlParam u "tlang" then
      u ++ (if hasSubstr u "?" then "&" else "?") ++ "tlang=en"
    else u
  if !hasUrlParam u "fmt" then u ++ "&fmt=srv3" else u

/-- `captionUrl.replace(/([?&])fmt=[^&]*/,'$1fmt=vtt')`: rewrite the first
`fmt` parameter's value to `vtt`. -/
def replaceFmtVttAux : Nat → List Char → List Char
  | 0, s => s
  | _ + 1, [] => []
  | fuel + 1, c :: rest =>
    if (c = '?' ∨ c = '&') ∧ "fmt=".data.isPrefixOf rest then
      c :: "fmt=vtt".data ++ (rest.drop 4).dropWhile (· ≠ '&')
    else c :: replaceFmtVttAux fuel rest

/-- The VTT-fallback URL of strategy 1 (index.ts line 159). -/
def vttFallbackUrl (captionUrl : String) : String :=
  String.mk (replaceFmtVttAux captionUrl.data.length captionUrl.data) ++
    (if hasSubstr captionUrl "fmt=" then ""
     else (if hasSubstr captionUrl "?" then "&" else "?") ++ "fmt=vtt")

/-! ### The timedtext attempts table (strategy 2) -/

/-- One parameter combination of the timedtext fallback (lang/kind/fmt/tlang,
`""` meaning the parameter is absent). -/
structure Attempt where
  lang : String
  kind : String
  fmt : String
  tlang : String
deriving DecidableEq

/-- The ten parameter combinations of index.ts lines 186-197, in order. -/
def attempts : List Attempt :=
  [⟨"en", "asr", "srv3", ""⟩,
   ⟨"en", "asr", "json3", ""⟩,
   ⟨"en", "asr", "", ""⟩,
   ⟨"en", "", "srv3", ""⟩,
   ⟨"en", "", "json3", ""⟩,
   ⟨"en", "", "", ""⟩,
   ⟨"en", "", "vtt", ""⟩,
   ⟨"en", "asr", "vtt", ""⟩,
   ⟨"", "asr", "srv3", "en"⟩,
   ⟨"", "", "vtt", "en"⟩]

/-- `URLSearchParams` serialization for the timedtext query: insertion
order `v`, `lang`, `kind`, `fmt`, `tlang` (the identifiers and values used
by the source need no percent-encoding). -/
def timedtextUrl (videoId : String) (a : Attempt) : String :=
  "https://www.youtube.com/api/timedtext?v=" ++ videoId ++
    (if a.lang != "" then "&lang=" ++ a.lang else "") ++
    (if a.kind != "" then "&kind=" ++ a.kind else "") ++
    (if a.fmt != "" then "&fmt=" ++ a.fmt else "") ++
    (if a.tlang != "" then "&tlang=" ++ a.tlang else "")

/-- Strategy-3 per-track URL (index.ts lines 247-250): insertion order
`v`, `lang`, `fmt`, then appended `kind` and `tlang`. -/
def trackUrl (videoId lang kind fmt : String) : String :=
  "https://www.youtube.com/api/timedtext?v=" ++ videoId ++
    "&lang=" ++ lang ++ "&fmt=" ++ fmt ++
    (if kind != "" then "&kind=" ++ kind else "") ++
    (if !startsWithStr lang "en" then "&tlang=en" else "")

/-! ### The transcript pipeline (`fetchYouTubeTranscript`) -/

/-- `Math.trunc`-free version of the strategy-1/3 format dispatch
(index.ts lines 147-153 and 256-258): `WEBVTT` prefix, then an `"events"`
substring, else the XML parser. -/
def dispatchParse (w : World) (raw : String) : Transcript :=
  if startsWithStr raw "WEBVTT" then parseVttTranscript raw
  else if hasSubstr raw "\"events\"" then parseJson3Transcript (w.json raw)
  else parseXmlTranscript raw

/-- `if (result.text.length > 50) return result;` — the acceptance check
applied to every parse result. -/
def accept50 (t : Transcript) : Option Transcript :=
  if 50 < t.text.length then some t else none

/-- Strategy 1 (index.ts lines 69-182): fetch the watch page, extract the
innertube API key, call the player endpoint, select a track, fetch and
parse its captions (with a VTT retry).  `Except.error` models an exception
escaping to the outer catch; `Except.ok none` means the strategy failed
softly and the pipeline falls through to strategy 2. -/
def strategy1 (w : World) (videoId : String) : Except Unit (Option Transcript) :=
  match w.fetch (watchUrl videoId) with
  | .thrown => .error ()
  | .resp wok html =>
    if !wok then .ok none
    else
      match captureKey html with
      | none => .ok none
      | some apiKey =>
        match w.fetch (playerUrl apiKey) with
        | .thrown => .error ()
        | .resp pok pbody =>
          if !pok then .ok none
          else
            match w.json pbody with
            | none => .error ()
            | some pdata =>
              match playerTracks pdata with
              | none => .ok none
              | some rawTracks =>
                if rawTracks.isEmpty then .ok none
                else
                  match selectTrack (rawTracks.map toTrack) with
                  | none => .ok none
                  | some chosen =>
                    if chosen.baseUrl == "" then .ok none
                    else
                      let capUrl := adjustCaptionUrl chosen
                      match w.fetch capUrl with
                      | .thrown => .error ()
                      | .resp cok craw =>
                        if !cok then .ok none
                        else
                          match accept50 (dispatchParse w craw) with
                          | some r => .ok (some r)
                          | none =>
                            match w.fetch (vttFallbackUrl capUrl) with
                            | .thrown => .error ()
                            | .resp vok vtt =>
                              if vok && vtt != "" && startsWithStr vtt "WEBVTT" then
                                match accept50 (parseVttTranscript vtt) with
                                | some r => .ok (some r)
                                | none => .ok none
                              else .ok none

/-- One iteration of the strategy-2 attempts loop (index.ts lines 199-228);
the whole body sits in a `try` whose `catch` just continues, so a thrown
fetch yields `none`.  Note the strategy-2 dispatch parses XML only when the
body contains `<transcript`. -/
def attemptStep (w : World) (url : String) : Option Transcript :=
  match w.fetch url with
  | .thrown => none
  | .resp ok body =>
    if ok && body != "" && 50 < body.length then
      match (if startsWithStr body "WEBVTT" then some (parseVttTranscript body)
             else if hasSubstr body "\"events\"" then
               some (parseJson3Transcript (w.json body))
             else if hasSubstr body "<transcript" then
               some (parseXmlTranscript body)
             else none) with
      | some r => accept50 r
      | none => none
    else none

/-- First accepted result of a candidate sequence (`return` inside the
loop). -/
def firstSome : List (Option Transcript) → Option Transcript
  | [] => none
  | some t :: _ => some t
  | none :: rest => firstSome rest

/-- Strategy 2 (index.ts lines 184-228): the timedtext attempts, in order.
Every fetch is inside the per-attempt `try`, so this strategy never lets
an exception escape. -/
def strategy2 (w : World) (videoId : String) : Except Unit (Option Transcript) :=
  .ok (firstSome (attempts.map (fun a => attemptStep w (timedtextUrl videoId a))))

/-- `listXml.matchAll(/<track[^>]*>/g)`: every `<track` through the next
`>`. -/
def trackTagsAux : Nat → List Char → List String
  | 0, _ => []
  | fuel + 1, s =>
    match splitFirst "<track".data s with
    | none => []
    | some p =>
      let run := p.2.takeWhile (· ≠ '>')
      match p.2.drop run.length with
      | '>' :: rest => ("<track" ++ String.mk run ++ ">") :: trackTagsAux fuel rest
      | _ => []

def trackTags (listXml : String) : List String :=
  trackTagsAux (listXml.data.length + 1) listXml.data

/-- One iteration of the strategy-3 track loop (index.ts lines 239-285):
extract `lang_code`/`kind`, fetch the srv3 URL for the track (translating
non-English tracks), dispatch-parse, and retry as VTT; both fetches are
inside the per-track `try`. -/
def trackStep (w : World) (videoId : String) (trackStr : String) :
    Option Transcript :=
  match captureAfter "lang_code=\"" trackStr with
  | none => none
  | some lang =>
    let kind := (captureAfter "kind=\"" trackStr).getD ""
    match w.fetch (trackUrl videoId lang kind "srv3") with
    | .thrown => none
    | .resp tok text =>
      if !tok then none
      else
        match accept50 (dispatchParse w text) with
        | some r => some r
        | none =>
          match w.fetch (trackUrl videoId lang kind "vtt") with
          | .thrown => none
          | .resp vok vtt =>
            if vok && vtt != "" && startsWithStr vtt "WEBVTT" then
              accept50 (parseVttTranscript vtt)
            else none

/-- Strategy 3 (index.ts lines 230-286): fetch the track listing (this
fetch is *not* inside a `try`, so a thrown error escapes) and try every
listed track. -/
def strategy3 (w : World) (videoId : String) : Except Unit (Option Transcript) :=
  match w.fetch (listUrl videoId) with
  | .thrown => .error ()
  | .resp lok listXml =>
    if !lok then .ok none
    else .ok (firstSome ((trackTags listXml).map (trackStep w videoId)))

/-- The strategy sequencing inside the outer `try` of
`fetchYouTubeTranscript` (index.ts lines 67-288): each strategy's soft
failure falls through; the final `throw new Error('No captions...')`
is `.error ()`. -/
def runPipeline (w : World) (videoId : String) : Except Unit Transcript :=
  match strategy1 w videoId with
  | .error _ => .error ()
  | .ok (some t) => .ok t
  | .ok none =>
    match strategy2 w videoId with
    | .error _ => .error ()
    | .ok (some t) => .ok t
    | .ok none =>
      match strategy3 w videoId with
      | .error _ => .error ()
      | .ok (some t) => .ok t
      | .ok none => .error ()

/-- The message of the outer catch (index.ts line 291). -/
def pipelineErrMsg : String :=
  "Could not fetch video transcript. The video may not have captions available or they may be disabled."

/-- `fetchYouTubeTranscript` (index.ts lines 67-293): the outer catch maps
every escaped exception to one fixed error. -/
def fetchYouTubeTranscript (w : World) (videoId : String) :
    Except String Transcript :=
  match runPipeline w videoId with
  | .ok t => .ok t
  | .error _ => .error pipelineErrMsg

/-! ### The embedded-metadata extraction of the historical variant
(`src/unnamed/part_001`, lines 407-434) -/

/-- Method 1 capture `/ytInitialPlayerResponse\s*=\s*({.+?});/`: the brace
group runs to the first closing sequence, and `.` does not cross
newlines. -/
def captureYtInitialAux : Nat → List Char → Option String
  | 0, _ => none
  | fuel + 1, s =>
    match splitFirst "ytInitialPlayerResponse".data s with
    | none => none
    | some p =>
      let afterWs := p.2.dropWhile Char.isWhitespace
      match afterWs with
      | '=' :: r1 =>
        let r2 := r1.dropWhile Char.isWhitespace
        match r2 with
        | '\x7b' :: r3 =>
          let run := r3.takeWhile (· ≠ '\n')
          match splitFirst ['\x7d', ';'] run with
          | some q =>
            if q.1.isEmpty then captureYtInitialAux fuel p.2
            else some (String.mk ('\x7b' :: q.1 ++ ['\x7d']))
          | none => captureYtInitialAux fuel p.2
        | _ => captureYtInitialAux fuel p.2
      | _ => captureYtInitialAux fuel p.2

def captureYtInitial (html : String) : Option String :=
  captureYtInitialAux (html.data.length + 1) html.data

/-- Method 2 capture `/"captionTracks":(\[.*?\])/`: from the bracket to the
first closing bracket, not crossing newlines. -/
def captureCapFragAux : Nat → List Char → Option String
  | 0, _ => none
  | fuel + 1, s =>
    match splitFirst "\"captionTracks\":".data s with
    | none => none
    | some p =>
      match p.2 with
      | '[' :: r1 =>
        let run := r1.takeWhile (· ≠ '\n')
        match splitFirst [']'] run with
        | some q => some (String.mk ('[' :: q.1 ++ [']']))
        | none => captureCapFragAux fuel p.2
      | _ => captureCapFragAux fuel p.2

def captureCapFrag (html : String) : Option String :=
  captureCapFragAux (html.data.length + 1) html.data

/-- The two-pattern embedded-metadata extraction of the historical variant:
parse `ytInitialPlayerResponse` and walk to `captionTracks`; if that yields
nothing, parse the raw `"captionTracks":[...]` fragment.  JSON parse
failures are caught and leave the list empty. -/
def embeddedCaptionTracks (w : World) (html : String) : List Json :=
  let m1 : List Json :=
    match captureYtInitial html with
    | some objStr =>
      match (w.json objStr).bind playerTracks with
      | some l => l
      | none => []
    | none => []
  if !m1.isEmpty then m1
  else
    match captureCapFrag html with
    | some frag =>
      match w.json frag with
      | some (.arr l) => l
      | _ => []
    | none => []

/-! ### Claim-side projections: segment start offsets and track priority -/

/-- Ordering of possibly-NaN start offsets: NaN compares vacuously (as in
JS, where comparisons against NaN never hold). -/
def oleq : Option JNum → Option JNum → Prop
  | some x, some y => x.le y
  | _, _ => True

instance : DecidableRel oleq := fun a b =>
  match a, b with
  | some x, some y => inferInstanceAs (Decidable (JNum.le x y))
  | some _, none => inferInstanceAs (Decidable True)
  | none, _ => inferInstanceAs (Decidable True)

/-- Start offsets of every record the XML parser's regex matches, in
payload order (kept or dropped). -/
def xmlStartsAll (xml : String) : List (Option JNum) :=
  (xmlMatches xml).map (fun m => jsParseFloatQ m.1)

/-- Start offsets of the segments the XML parser keeps, in emission
order. -/
def xmlStartsKept (xml : String) : List (Option JNum) :=
  (xmlSegs xml).map (fun s => jsParseFloatQ s.1)

/-- The event records of a JSON3 payload, in payload order (empty when
parsing failed or the events loop threw). -/
def json3RecordsOf (j? : Option Json) : List (Json × List String) :=
  match j? with
  | some data =>
    match jsonEventsArr data with
    | some evs => (json3Records evs).getD []
    | none => []
  | none => []

/-- Start offsets (in seconds) of every JSON3 event record. -/
def json3StartsAll (j? : Option Json) : List (Option JNum) :=
  (json3RecordsOf j?).map (fun r => (jsToNumQ r.1).map (JNum.divN · 1000))

/-- Start offsets of the JSON3 segments that are kept. -/
def json3StartsKept (j? : Option Json) : List (Option JNum) :=
  ((json3RecordsOf j?).filter (fun r => !r.2.isEmpty)).map
    (fun r => (jsToNumQ r.1).map (JNum.divN · 1000))

/-- Decode a cue timecode to seconds (the claim's notion of a VTT
segment's start offset). -/
def vttTimeQ (t : String) : Option JNum :=
  match splitOnChar ':' t.data with
  | [h, m, s] =>
    match jsParseFloatQ h, jsParseFloatQ m, jsParseFloatQ s with
    | some hq, some mq, some sq => some ((hq.mulN 3600).add ((mq.mulN 60).add sq))
    | _, _, _ => none
  | [m, s] =>
    match jsParseFloatQ m, jsParseFloatQ s with
    | some mq, some sq => some ((mq.mulN 60).add sq)
    | _, _ => none
  | _ => none

/-- Start offsets of every cue the VTT parser matches, in payload order. -/
def vttStartsAll (vtt : String) : List (Option JNum) :=
  (vttCuesAll vtt).map (fun c => vttTimeQ c.1)

/-- Start offsets of the cues the VTT parser keeps. -/
def vttStartsKept (vtt : String) : List (Option JNum) :=
  ((vttCuesAll vtt).filter (fun c => c.2 != "")).map (fun c => vttTimeQ c.1)

/-- The priority class of a track under `selectTrack`'s rule:
0 = English machine-generated, 1 = English manual, 2 = other
machine-generated, 3 = everything else. -/
def trackTier (t : CaptionTrack) : ℕ :=
  if enASR t then 0 else if enManual t then 1 else if isASR t then 2 else 3

/-- The best (smallest) priority class present in a candidate list. -/
def listTier (l : List CaptionTrack) : ℕ :=
  if l.any enASR then 0
  else if l.any enManual then 1
  else if l.any isASR then 2
  else 3

/-! ## Supporting lemmas -/

theorem accept50_eq_some {t r : Transcript} (h : accept50 t = some r) :
    r = t ∧ 50 < t.text.length := by
  unfold accept50 at h
  split at h
  · exact ⟨(Option.some.injEq _ _ ▸ h).symm, by assumption⟩
  · exact Option.noConfusion h

theorem xmlSegs_text_ne (xml : String) :
    ∀ s ∈ xmlSegs xml, s.2 ≠ "" := by
  intro s hs
  unfold xmlSegs at hs
  obtain ⟨m, hm, rfl⟩ := List.mem_map.1 hs
  have h2 := (List.mem_filter.1 hm).2
  simpa using h2

theorem xmlStartsKept_sublist (xml : String) :
    (xmlStartsKept xml).Sublist (xmlStartsAll xml) := by
  unfold xmlStartsKept xmlStartsAll xmlSegs
  rw [List.map_map]
  exact List.Sublist.map _ (List.filter_sublist _)

theorem json3StartsKept_sublist (j? : Option Json) :
    (json3StartsKept j?).Sublist (json3StartsAll j?) := by
  unfold json3StartsKept json3StartsAll
  exact List.Sublist.map _ (List.filter_sublist _)

theorem vttStartsKept_sublist (vtt : String) :
    (vttStartsKept vtt).Sublist (vttStartsAll vtt) := by
  unfold vttStartsKept vttStartsAll
  exact List.Sublist.map _ (List.filter_sublist _)

/-! ## Claims -/

/-- Claim C5: for every Transcript produced by any of the three parsers and
any input payload, the `fullText` field equals the timeline's `text` fields
joined in order with a single space. -/
theorem fullText_is_join_of_timeline :
    (∀ xml, (parseXmlTranscript xml).text =
      joinSpace ((parseXmlTranscript xml).timeline.map TimelineItem.text)) ∧
    (∀ j?, (parseJson3Transcript j?).text =
      joinSpace ((parseJson3Transcript j?).timeline.map TimelineItem.text)) ∧
    (∀ vtt, (parseVttTranscript vtt).text =
      joinSpace ((parseVttTranscript vtt).timeline.map TimelineItem.text)) := by
  refine ⟨fun xml => ?_, fun j? => ?_, fun vtt => ?_⟩
  · unfold parseXmlTranscript
    split
    · rfl
    · simp only [List.map_map]
      rfl
  · unfold parseJson3Transcript
    split
    · rfl
    · split
      · rfl
      · split
        · rfl
        · simp only [List.map_map]
          rfl
  · unfold parseVttTranscript
    split
    · rfl
    · simp only [List.map_map]
      rfl

/-- Claim C9: each of the three parsers is total (they are Lean functions)
and returns the explicitly empty Transcript, rather than throwing, when
the input does not match its expected signature: no `<text` element for
the XML parser, a failed `JSON.parse` or no `events` array for the JSON3
parser, no `WEBVTT` marker for the VTT parser. -/
theorem parsers_empty_on_signature_mismatch :
    (∀ xml, hasSubstr xml "<text" = false → parseXmlTranscript xml = ⟨"", []⟩) ∧
    (parseJson3Transcript none = ⟨"", []⟩ ∧
      ∀ j, jsonEventsArr j = none → parseJson3Transcript (some j) = ⟨"", []⟩) ∧
    (∀ vtt, hasSubstr vtt "WEBVTT" = false → parseVttTranscript vtt = ⟨"", []⟩) := by
  refine ⟨fun xml h => ?_, ⟨rfl, fun j h => ?_⟩, fun vtt h => ?_⟩
  · simp [parseXmlTranscript, h]
  · simp [parseJson3Transcript, h]
  · simp [parseVttTranscript, h]

theorem parsers_empty_on_signature_mismatch_witness :
    hasSubstr "plain text" "<text" = false ∧
    parseXmlTranscript "plain text" = ⟨"", []⟩ ∧
    jsonEventsArr (.obj [("other", .num (.ofInt 1))]) = none ∧
    parseJson3Transcript (some (.obj [("other", .num (.ofInt 1))])) = ⟨"", []⟩ ∧
    hasSubstr "plain text" "WEBVTT" = false ∧
    parseVttTranscript "plain text" = ⟨"", []⟩ :=
  ⟨by decide,
   parsers_empty_on_signature_mismatch.1 "plain text" (by decide),
   rfl,
   parsers_empty_on_signature_mismatch.2.1.2 _ rfl,
   by decide,
   parsers_empty_on_signature_mismatch.2.2 "plain text" (by decide)⟩

/-- Payloads exhibiting the failures of claim C4: an XML payload with
decreasing start offsets, and a JSON3 event whose only utf8 piece is
whitespace. -/
def xmlOutOfOrder : String :=
  "<transcript><text start=\"100\">b</text><text start=\"5\">a</text></transcript>"

def jsonWhitespaceSeg : Json :=
  .obj [("events", .arr
    [.obj [("tStartMs", .num (.ofInt 0)), ("segs", .arr [.obj [("utf8", .str " ")]])]])]

/-- Claim C4 is false: the parsers emit segments in payload order without
sorting, so a payload with decreasing start offsets yields a decreasing
timeline; and the JSON3 parser keeps a segment whose only utf8 piece trims
to the empty string, so an empty-text segment is retained. -/
theorem segment_invariant_counterexample :
    (¬ List.Pairwise oleq (xmlStartsKept xmlOutOfOrder)) ∧
    (parseXmlTranscript xmlOutOfOrder).timeline =
      [⟨"1:40", "b"⟩, ⟨"0:05", "a"⟩] ∧
    (parseJson3Transcript (some jsonWhitespaceSeg)).timeline =
      [⟨"0:00", ""⟩] := by
  exact ⟨by decide, by decide, by decide⟩

/-- Claim C4 amended: each parser emits segments in payload order, so the
timeline start offsets are non-decreasing whenever the payload's record
start offsets (dropped records included) are; every kept XML or VTT
segment has non-empty normalized text; the JSON3 parser keeps a segment
whenever its event has at least one utf8 piece, so a whitespace-only piece
yields a kept segment with empty text (see the counterexample). -/
theorem segment_invariant_amended :
    (∀ xml, List.Pairwise oleq (xmlStartsAll xml) →
      List.Pairwise oleq (xmlStartsKept xml)) ∧
    (∀ xml, ∀ it ∈ (parseXmlTranscript xml).timeline, it.text ≠ "") ∧
    (∀ j?, List.Pairwise oleq (json3StartsAll j?) →
      List.Pairwise oleq (json3StartsKept j?)) ∧
    (∀ vtt, List.Pairwise oleq (vttStartsAll vtt) →
      List.Pairwise oleq (vttStartsKept vtt)) ∧
    (∀ vtt, ∀ it ∈ (parseVttTranscript vtt).timeline, it.text ≠ "") := by
  refine ⟨fun xml h => List.Pairwise.sublist (xmlStartsKept_sublist xml) h,
    fun xml it hit => ?_,
    fun j? h => List.Pairwise.sublist (json3StartsKept_sublist j?) h,
    fun vtt h => List.Pairwise.sublist (vttStartsKept_sublist vtt) h,
    fun vtt it hit => ?_⟩
  · unfold parseXmlTranscript at hit
    split at hit
    · simp at hit
    · obtain ⟨s, hs, rfl⟩ := List.mem_map.1 hit
      exact xmlSegs_text_ne xml s hs
  · unfold parseVttTranscript at hit
    split at hit
    · simp at hit
    · obtain ⟨c, hc, rfl⟩ := List.mem_map.1 hit
      have h2 := (List.mem_filter.1 hc).2
      simpa using h2

/-- A well-ordered XML payload instantiating the amended claim. -/
def xmlOrdered : String :=
  "<transcript><text start=\"5\">a</text><text start=\"100\">b</text></transcript>"

theorem segment_invariant_amended_witness :
    List.Pairwise oleq (xmlStartsKept xmlOrdered) ∧
    ((parseXmlTranscript xmlOrdered).timeline.map TimelineItem.text).all
      (fun t => t != "") = true :=
  ⟨segment_invariant_amended.1 xmlOrdered (by decide),
   by
    have h := segment_invariant_amended.2.1 xmlOrdered
    rw [List.all_eq_true]
    intro t ht
    obtain ⟨it, hit, rfl⟩ := List.mem_map.1 ht
    simpa using h it hit⟩

/-- Fixtures for claim C8: a five-second start expressed as a VTT cue, as a
timed-XML record and as a JSON3 event, plus the hour-scale cue of the
spec scenario. -/
def vttFiveSec : String :=
  "WEBVTT\n\n00:00:05.000 --> 00:00:07.000\nhello world\n"

def xmlFiveSec : String :=
  "<transcript><text start=\"5\">hello world</text></transcript>"

def vttHourScale : String :=
  "WEBVTT\n\n1\n01:02:03.400 --> 01:02:05.000\nmulti line\ncue text\n"

def jsonHourScale : Json :=
  .obj [("events", .arr
    [.obj [("tStartMs", .num (.ofInt 3723400)), ("segs", .arr [.obj [("utf8", .str "hello")]])]])]

/-- Claim C8 is false as stated: the three parsers do not share one
timestamp normalization.  A five-second start renders as `0:00:05` through
the VTT parser (which keeps the hour component of a three-component
timecode even when it is zero) but as `0:05` through the XML parser
(`m:ss` whenever hours = 0). -/
theorem timestamp_normalization_counterexample :
    (parseVttTranscript vttFiveSec).timeline = [⟨"0:00:05", "hello world"⟩] ∧
    (parseXmlTranscript xmlFiveSec).timeline = [⟨"0:05", "hello world"⟩] ∧
    fmtTime (.ofInt 5) = "0:05" := by
  refine ⟨by decide, by decide, by decide⟩

/-- Claim C8 amended: the XML and JSON3 parsers share the `fmtTime`
normalization (whole seconds, `h:mm:ss` when hours > 0, else `m:ss`); the
VTT parser renders by the component count of the source timecode —
three-component timecodes always as `h:mm:ss` (hour unpadded, even when
zero), two-component as `m:ss`.  The hour-scale scenario holds: the cue
`01:02:03.400 --> 01:02:05.000` parses to a segment labelled `1:02:03`,
agreeing with `fmtTime` on 3723.4 seconds. -/
theorem timestamp_normalization_amended :
    (parseVttTranscript vttHourScale).timeline =
      [⟨"1:02:03", "multi line cue text"⟩] ∧
    fmtTime ⟨18617, 5⟩ = "1:02:03" ∧
    (parseJson3Transcript (some jsonHourScale)).timeline =
      [⟨"1:02:03", "hello"⟩] ∧
    toDisplay "00:00:05.000" = "0:00:05" ∧
    toDisplay "00:09.500" = "0:09" ∧
    fmtTime (.ofInt 5) = "0:05" ∧ fmtTime ⟨19, 2⟩ = "0:09" := by
  refine ⟨by decide, by decide, by decide, by decide, by decide, by decide, by decide⟩


/-! ### Claims about `selectTrack` and `extractVideoId` -/

theorem find?_none_all {p : CaptionTrack → Bool} {l : List CaptionTrack}
    (h : l.find? p = none) : ∀ x ∈ l, p x = false := by
  intro x hx
  have := List.find?_eq_none.1 h x hx
  exact Bool.eq_false_iff.2 this

/-- Claim C6: for every non-empty list of caption tracks, `selectTrack`
returns an English machine-generated (`asr`) track if one exists, else an
English manual track, else any machine-generated track, else the first
element; "English" means the effective language code (languageCode, else
vssId) equals `en`, starts with `en`, or contains `.en`. -/
theorem selectTrack_priority (l : List CaptionTrack) (hne : l ≠ []) :
    ∃ t, selectTrack l = some t ∧ t ∈ l ∧
      ((∃ x ∈ l, enASR x = true) → enASR t = true) ∧
      (¬(∃ x ∈ l, enASR x = true) → (∃ x ∈ l, enManual x = true) →
        enManual t = true) ∧
      (¬(∃ x ∈ l, enASR x = true) → ¬(∃ x ∈ l, enManual x = true) →
        (∃ x ∈ l, isASR x = true) → isASR t = true) ∧
      (¬(∃ x ∈ l, enASR x = true) → ¬(∃ x ∈ l, enManual x = true) →
        ¬(∃ x ∈ l, isASR x = true) → some t = l.head?) := by
  rcases h1 : l.find? enASR with _ | a
  · rcases h2 : l.find? enManual with _ | b
    · rcases h3 : l.find? isASR with _ | c
      · rcases hl : l with _ | ⟨x, xs⟩
        · exact absurd hl hne
        · subst hl
          refine ⟨x, ?_, List.mem_cons_self x xs, ?_, ?_, ?_, ?_⟩
          · unfold selectTrack
            rw [h1, h2, h3]
            rfl
          · rintro ⟨y, hy, hpy⟩
            exact absurd hpy (by simp [find?_none_all h1 y hy])
          · rintro - ⟨y, hy, hpy⟩
            exact absurd hpy (by simp [find?_none_all h2 y hy])
          · rintro - - ⟨y, hy, hpy⟩
            exact absurd hpy (by simp [find?_none_all h3 y hy])
          · intro _ _ _
            rfl
      · refine ⟨c, ?_, List.mem_of_find?_eq_some h3, ?_, ?_, ?_, ?_⟩
        · unfold selectTrack
          rw [h1, h2, h3]
          rfl
        · rintro ⟨y, hy, hpy⟩
          exact absurd hpy (by simp [find?_none_all h1 y hy])
        · rintro - ⟨y, hy, hpy⟩
          exact absurd hpy (by simp [find?_none_all h2 y hy])
        · intro _ _ _
          exact List.find?_some h3
        · intro _ _ hno
          exact absurd ⟨c, List.mem_of_find?_eq_some h3, List.find?_some h3⟩ hno
    · refine ⟨b, ?_, List.mem_of_find?_eq_some h2, ?_, ?_, ?_, ?_⟩
      · unfold selectTrack
        rw [h1, h2]
        rfl
      · rintro ⟨y, hy, hpy⟩
        exact absurd hpy (by simp [find?_none_all h1 y hy])
      · intro _ _
        exact List.find?_some h2
      · intro _ hno _
        exact absurd ⟨b, List.mem_of_find?_eq_some h2, List.find?_some h2⟩ hno
      · intro _ hno _
        exact absurd ⟨b, List.mem_of_find?_eq_some h2, List.find?_some h2⟩ hno
  · refine ⟨a, ?_, List.mem_of_find?_eq_some h1, ?_, ?_, ?_, ?_⟩
    · unfold selectTrack
      rw [h1]
      rfl
    · intro _
      exact List.find?_some h1
    · intro hno _
      exact absurd ⟨a, List.mem_of_find?_eq_some h1, List.find?_some h1⟩ hno
    · intro hno _ _
      exact absurd ⟨a, List.mem_of_find?_eq_some h1, List.find?_some h1⟩ hno
    · intro hno _ _
      exact absurd ⟨a, List.mem_of_find?_eq_some h1, List.find?_some h1⟩ hno

/-- Two caption tracks differing only in their source URL, and one French
manual track, for the selector witnesses and counterexample. -/
def trEnA : CaptionTrack := ⟨"en", "", "asr", "u1"⟩

def trEnB : CaptionTrack := ⟨"en", "", "asr", "u2"⟩

def trFrMan : CaptionTrack := ⟨"fr", "", "", "u3"⟩

theorem selectTrack_priority_witness :
    ∃ t, selectTrack [trFrMan, trEnA] = some t ∧ t ∈ [trFrMan, trEnA] ∧
      ((∃ x ∈ [trFrMan, trEnA], enASR x = true) → enASR t = true) ∧
      (¬(∃ x ∈ [trFrMan, trEnA], enASR x = true) →
        (∃ x ∈ [trFrMan, trEnA], enManual x = true) → enManual t = true) ∧
      (¬(∃ x ∈ [trFrMan, trEnA], enASR x = true) →
        ¬(∃ x ∈ [trFrMan, trEnA], enManual x = true) →
        (∃ x ∈ [trFrMan, trEnA], isASR x = true) → isASR t = true) ∧
      (¬(∃ x ∈ [trFrMan, trEnA], enASR x = true) →
        ¬(∃ x ∈ [trFrMan, trEnA], enManual x = true) →
        ¬(∃ x ∈ [trFrMan, trEnA], isASR x = true) →
        some t = [trFrMan, trEnA].head?) :=
  selectTrack_priority [trFrMan, trEnA] (by decide)

/-- Claim C7 is false: `selectTrack` picks the *first* track of the best
priority class, so two equally-ranked tracks swap outcomes when the input
order swaps. -/
theorem selectTrack_order_counterexample :
    [trEnA, trEnB].Perm [trEnB, trEnA] ∧
    selectTrack [trEnA, trEnB] ≠ selectTrack [trEnB, trEnA] :=
  ⟨List.Perm.swap trEnB trEnA [], by decide⟩

theorem any_eq_of_perm {l l' : List CaptionTrack} (h : l.Perm l')
    (p : CaptionTrack → Bool) : l.any p = l'.any p := by
  cases ha : l.any p <;> cases hb : l'.any p <;> try rfl
  · obtain ⟨x, hx, hpx⟩ := List.any_eq_true.1 hb
    have : l.any p = true := List.any_eq_true.2 ⟨x, h.mem_iff.2 hx, hpx⟩
    rw [ha] at this
    exact Bool.noConfusion this
  · obtain ⟨x, hx, hpx⟩ := List.any_eq_true.1 ha
    have : l'.any p = true := List.any_eq_true.2 ⟨x, h.mem_iff.1 hx, hpx⟩
    rw [hb] at this
    exact Bool.noConfusion this

theorem selectTrack_tier {l : List CaptionTrack} {t : CaptionTrack}
    (h : selectTrack l = some t) : trackTier t = listTier l := by
  rcases h1 : l.find? enASR with _ | a
  · rcases h2 : l.find? enManual with _ | b
    · rcases h3 : l.find? isASR with _ | c
      · unfold selectTrack at h
        rw [h1, h2, h3] at h
        have ht : l.head? = some t := h
        have hmem : t ∈ l := by
          cases l with
          | nil => exact Option.noConfusion ht
          | cons x xs =>
            have hx : x = t := by
              have : (some x : Option CaptionTrack) = some t := ht
              exact Option.some.injEq x t ▸ this
            exact hx ▸ List.mem_cons_self x xs
        have e1 := find?_none_all h1 t hmem
        have e2 := find?_none_all h2 t hmem
        have e3 := find?_none_all h3 t hmem
        have hA : l.any enASR = false := by
          cases hx : l.any enASR
          · rfl
          · obtain ⟨y, hy, hpy⟩ := List.any_eq_true.1 hx
            exact absurd hpy (by simp [find?_none_all h1 y hy])
        have hB : l.any enManual = false := by
          cases hx : l.any enManual
          · rfl
          · obtain ⟨y, hy, hpy⟩ := List.any_eq_true.1 hx
            exact absurd hpy (by simp [find?_none_all h2 y hy])
        have hC : l.any isASR = false := by
          cases hx : l.any isASR
          · rfl
          · obtain ⟨y, hy, hpy⟩ := List.any_eq_true.1 hx
            exact absurd hpy (by simp [find?_none_all h3 y hy])
        simp [trackTier, listTier, e1, e2, e3, hA, hB, hC]
      · unfold selectTrack at h
        rw [h1, h2, h3] at h
        have ht : t = c := by
          have : (some c : Option CaptionTrack) = some t := h
          exact (Option.some.injEq c t ▸ this).symm
        subst ht
        have hmem := List.mem_of_find?_eq_some h3
        have e1 := find?_none_all h1 t hmem
        have e2 := find?_none_all h2 t hmem
        have e3 := List.find?_some h3
        have hA : l.any enASR = false := by
          cases hx : l.any enASR
          · rfl
          · obtain ⟨y, hy, hpy⟩ := List.any_eq_true.1 hx
            exact absurd hpy (by simp [find?_none_all h1 y hy])
        have hB : l.any enManual = false := by
          cases hx : l.any enManual
          · rfl
          · obtain ⟨y, hy, hpy⟩ := List.any_eq_true.1 hx
            exact absurd hpy (by simp [find?_none_all h2 y hy])
        have hC : l.any isASR = true :=
          List.any_eq_true.2 ⟨t, hmem, e3⟩
        simp [trackTier, listTier, e1, e2, e3, hA, hB, hC]
    · unfold selectTrack at h
      rw [h1, h2] at h
      have ht : t = b := by
        have : (some b : Option CaptionTrack) = some t := h
        exact (Option.some.injEq b t ▸ this).symm
      subst ht
      have hmem := List.mem_of_find?_eq_some h2
      have e1 := find?_none_all h1 t hmem
      have e2 := List.find?_some h2
      have hA : l.any enASR = false := by
        cases hx : l.any enASR
        · rfl
        · obtain ⟨y, hy, hpy⟩ := List.any_eq_true.1 hx
          exact absurd hpy (by simp [find?_none_all h1 y hy])
      have hB : l.any enManual = true := List.any_eq_true.2 ⟨t, hmem, e2⟩
      have hasr : isASR t = false := by
        have := e2
        unfold enManual at this
        exact Bool.eq_false_iff.2 fun hh => by simp [hh] at this
      simp [trackTier, listTier, e1, e2, hA, hB, hasr]
  · unfold selectTrack at h
    rw [h1] at h
    have ht : t = a := by
      have : (some a : Option CaptionTrack) = some t := h
      exact (Option.some.injEq a t ▸ this).symm
    subst ht
    have hmem := List.mem_of_find?_eq_some h1
    have e1 := List.find?_some h1
    have hA : l.any enASR = true := List.any_eq_true.2 ⟨t, hmem, e1⟩
    simp [trackTier, listTier, e1, hA]

/-- Claim C7 amended: `selectTrack` is order-independent up to priority
class — for any permutation of the candidate list, the chosen track
belongs to the same priority class (English-asr / English-manual /
any-asr / fallback), namely the best class present in the list. -/
theorem selectTrack_perm_tier {l l' : List CaptionTrack}
    {t t' : CaptionTrack} (hp : l.Perm l') (h : selectTrack l = some t)
    (h' : selectTrack l' = some t') : trackTier t = trackTier t' := by
  rw [selectTrack_tier h, selectTrack_tier h']
  unfold listTier
  rw [any_eq_of_perm hp enASR, any_eq_of_perm hp enManual,
    any_eq_of_perm hp isASR]

theorem selectTrack_perm_tier_witness :
    trackTier trEnA = trackTier trEnB :=
  @selectTrack_perm_tier [trEnA, trEnB] [trEnB, trEnA] trEnA trEnB
    (List.Perm.swap trEnB trEnA []) (by decide) (by decide)

/-- Claim C10 is false: the URL patterns capture an arbitrary non-empty run
of characters outside `&`, newline, `?`, `#` — a three-character id is
accepted from a short-link. -/
theorem videoId_alphabet_counterexample :
    extractVideoId "https://youtu.be/abc" = some "abc" ∧
    ("abc" : String).length ≠ 11 := ⟨by decide, by decide⟩

theorem idAlphabet_not_bad (c : Char) (h : idAlphabet c = true) :
    badIdChar c = false := by
  cases hb : badIdChar c
  · rfl
  · exfalso
    simp only [badIdChar, Bool.or_eq_true, beq_iff_eq] at hb
    rcases hb with ((rfl | rfl) | rfl) | rfl <;> exact absurd h (by decide)

theorem urlPatternAux_sound :
    ∀ fuel s id, urlPatternAux fuel s = some id →
      id ≠ "" ∧ ∀ c ∈ id.data, badIdChar c = false := by
  intro fuel
  induction fuel with
  | zero =>
    intro s id h
    exact absurd h (by simp [urlPatternAux])
  | succ n ih =>
    intro s id h
    cases s with
    | nil => exact absurd h (by simp [urlPatternAux])
    | cons c tail =>
      unfold urlPatternAux at h
      cases hsh : shapeAt (c :: tail) with
      | some rest =>
        rw [hsh] at h
        dsimp only at h
        by_cases hrun : (rest.takeWhile (fun c => !badIdChar c)).isEmpty
        · rw [if_pos hrun] at h
          exact ih tail id h
        · rw [if_neg hrun] at h
          have hid : id = String.mk (rest.takeWhile (fun c => !badIdChar c)) :=
            ((Option.some.injEq _ _ ▸ h)).symm
          subst hid
          constructor
          · intro he
            have : rest.takeWhile (fun c => !badIdChar c) = [] :=
              congrArg String.data he
            exact hrun (by simp [this])
          · intro ch hch
            have := List.mem_takeWhile_imp hch
            simpa using this
      | none =>
        rw [hsh] at h
        exact ih tail id h

/-- Claim C10 amended: every extracted VideoId is non-empty and contains
none of `&`, newline, `?`, `#`; the full 11-character alphabet constraint
holds only for ids accepted by the bare-identifier pattern (when no URL
shape matched). -/
theorem videoId_shape_amended (url id : String)
    (h : extractVideoId url = some id) :
    (id ≠ "" ∧ ∀ c ∈ id.data, badIdChar c = false) ∧
    (urlPatternId url = none →
      id.length = 11 ∧ ∀ c ∈ id.data, idAlphabet c = true) := by
  unfold extractVideoId at h
  cases hp : urlPatternId url with
  | some v =>
    rw [hp] at h
    have hv : v = id := by
      have : (some v : Option String) = some id := h
      exact Option.some.injEq v id ▸ this
    subst hv
    exact ⟨urlPatternAux_sound _ _ _ hp,
      fun hnone => Option.noConfusion hnone⟩
  | none =>
    rw [hp] at h
    have hb : bareId url = some id := h
    unfold bareId at hb
    split at hb
    · have hu : url = id := by
        have : (some url : Option String) = some id := hb
        exact Option.some.injEq url id ▸ this
      subst hu
      rename_i hcond
      simp only [Bool.and_eq_true] at hcond
      have h11 : url.length = 11 := beq_iff_eq.1 hcond.1
      have hall : ∀ c ∈ url.data, idAlphabet c = true := by
        intro c hc
        exact List.all_eq_true.1 hcond.2 c hc
      refine ⟨⟨?_, fun c hc => idAlphabet_not_bad c (hall c hc)⟩,
        fun _ => ⟨h11, hall⟩⟩
      intro he
      rw [he] at h11
      exact absurd h11 (by decide)
    · exact Option.noConfusion hb

theorem videoId_shape_amended_witness :
    (("dQw4w9WgXcQ" : String) ≠ "" ∧
      ∀ c ∈ ("dQw4w9WgXcQ" : String).data, badIdChar c = false) ∧
    (urlPatternId "dQw4w9WgXcQ" = none →
      ("dQw4w9WgXcQ" : String).length = 11 ∧
        ∀ c ∈ ("dQw4w9WgXcQ" : String).data, idAlphabet c = true) :=
  videoId_shape_amended "dQw4w9WgXcQ" "dQw4w9WgXcQ" (by decide)

/-! ### Pipeline soundness lemmas -/

theorem firstSome_sound :
    ∀ (l : List (Option Transcript)) (t : Transcript),
      firstSome l = some t → some t ∈ l := by
  intro l
  induction l with
  | nil => intro t h; exact absurd h (by simp [firstSome])
  | cons o rest ih =>
    intro t h
    cases o with
    | some x =>
      have hx : x = t := by
        have : (some x : Option Transcript) = some t := h
        exact Option.some.injEq x t ▸ this
      subst hx
      exact List.mem_cons_self _ _
    | none => exact List.mem_cons_of_mem _ (ih t h)

theorem attemptStep_sound (w : World) (url : String) (t : Transcript)
    (h : attemptStep w url = some t) : 50 < t.text.length := by
  unfold attemptStep at h
  repeat' split at h
  all_goals
    first
    | exact Option.noConfusion h
    | (rcases accept50_eq_some h with ⟨rfl, hl⟩; exact hl)

theorem strategy2_sound (w : World) (v : String) (t : Transcript)
    (h : strategy2 w v = .ok (some t)) : 50 < t.text.length := by
  unfold strategy2 at h
  injection h with h
  obtain ⟨a, -, ha⟩ := List.mem_map.1 (firstSome_sound _ _ h)
  exact attemptStep_sound w _ t ha

theorem trackStep_sound (w : World) (v tr : String) (t : Transcript)
    (h : trackStep w v tr = some t) : 50 < t.text.length := by
  unfold trackStep at h
  dsimp only at h
  repeat' split at h
  all_goals
    first
    | exact Option.noConfusion h
    | (rcases accept50_eq_some h with ⟨rfl, hl⟩; exact hl)
    | (injection h with h; subst h;
       rcases accept50_eq_some
         (show accept50 _ = some _ from by assumption) with ⟨rfl, hl⟩;
       exact hl)

theorem strategy3_sound (w : World) (v : String) (t : Transcript)
    (h : strategy3 w v = .ok (some t)) : 50 < t.text.length := by
  unfold strategy3 at h
  split at h
  · exact Except.noConfusion h
  · split at h
    · injection h with h
      exact Option.noConfusion h
    · injection h with h
      obtain ⟨tr, -, ha⟩ := List.mem_map.1 (firstSome_sound _ _ h)
      exact trackStep_sound w v tr t ha

theorem strategy1_sound (w : World) (v : String) (t : Transcript)
    (h : strategy1 w v = .ok (some t)) : 50 < t.text.length := by
  unfold strategy1 at h
  dsimp only at h
  repeat' split at h
  all_goals
    first
    | exact Except.noConfusion h
    | (injection h with h; exact Option.noConfusion h)
    | (injection h with h; injection h with h; subst h;
       rcases accept50_eq_some
         (show accept50 _ = some _ from by assumption) with ⟨rfl, hl⟩;
       exact hl)

theorem runPipeline_cases (w : World) (v : String) (t : Transcript)
    (h : runPipeline w v = .ok t) :
    strategy1 w v = .ok (some t) ∨
    (strategy1 w v = .ok none ∧ strategy2 w v = .ok (some t)) ∨
    (strategy1 w v = .ok none ∧ strategy2 w v = .ok none ∧
      strategy3 w v = .ok (some t)) := by
  unfold runPipeline at h
  repeat' split at h
  all_goals try exact Except.noConfusion h
  all_goals (injection h with h; subst h)
  · exact Or.inl (by assumption)
  · exact Or.inr (Or.inl ⟨by assumption, by assumption⟩)
  · exact Or.inr (Or.inr ⟨by assumption, by assumption, by assumption⟩)

/-! ### Claim C3: the acceptance check -/

/-- Claim C3: after every fetch+parse in every strategy a parse result is
accepted exactly when its fullText length exceeds 50 characters; an
accepted Transcript is returned immediately (no further strategies run),
and a short result is treated as a failed attempt. -/
theorem acceptance_check_correct :
    (∀ w v t, fetchYouTubeTranscript w v = .ok t → 50 < t.text.length) ∧
    (∀ w v t, strategy1 w v = .ok (some t) →
      fetchYouTubeTranscript w v = .ok t) ∧
    (∀ w v t, strategy1 w v = .ok none → strategy2 w v = .ok (some t) →
      fetchYouTubeTranscript w v = .ok t) ∧
    (∀ t, 50 < t.text.length → accept50 t = some t) ∧
    (∀ t, t.text.length ≤ 50 → accept50 t = none) := by
  refine ⟨fun w v t h => ?_, fun w v t h => ?_, fun w v t h1 h2 => ?_,
    fun t h => ?_, fun t h => ?_⟩
  · have hr : runPipeline w v = .ok t := by
      unfold fetchYouTubeTranscript at h
      split at h
      · rename_i t' heq
        injection h with h
        exact h ▸ heq
      · exact Except.noConfusion h
    rcases runPipeline_cases w v t hr with h1 | ⟨_, h2⟩ | ⟨_, _, h3⟩
    · exact strategy1_sound w v t h1
    · exact strategy2_sound w v t h2
    · exact strategy3_sound w v t h3
  · unfold fetchYouTubeTranscript runPipeline
    rw [h]
  · unfold fetchYouTubeTranscript runPipeline
    rw [h1, h2]
  · unfold accept50
    rw [if_pos h]
  · unfold accept50
    rw [if_neg (Nat.not_lt.2 h)]

/-! ### Concrete worlds -/

def vidA : String := "abcdefghijk"

/-- A timedtext payload long enough to pass the acceptance check. -/
def xmlGood : String :=
  "<transcript><text start=\"1\">aaaaaaaaaaaaaaaaaaaaaaaaaaaaaaaaaaaaaaaaaaaaaaaaaaaaaaaaaaaa</text></transcript>"

def tGood : Transcript := parseXmlTranscript xmlGood

/-- The first timedtext attempt URL for `vidA`. -/
def ttUrl0 : String := timedtextUrl vidA ⟨"en", "asr", "srv3", ""⟩

/-- The canonical-page fetch throws; the first timedtext attempt would
succeed. -/
def wWatchThrown : World :=
  ⟨fun u =>
    if u == watchUrl vidA then .thrown
    else if u == ttUrl0 then .resp true xmlGood
    else .resp false "", fun _ => none⟩

/-- The canonical-page fetch returns a non-ok response; the first
timedtext attempt succeeds. -/
def wWatchNotOk : World :=
  ⟨fun u =>
    if u == watchUrl vidA then .resp false ""
    else if u == ttUrl0 then .resp true xmlGood
    else .resp false "", fun _ => none⟩

/-- The canonical page is served but carries no API key; the first
timedtext attempt succeeds. -/
def wNoKey : World :=
  ⟨fun u =>
    if u == watchUrl vidA then .resp true "<html>nokey</html>"
    else if u == ttUrl0 then .resp true xmlGood
    else .resp false "", fun _ => none⟩

theorem acceptance_check_correct_witness :
    fetchYouTubeTranscript wNoKey vidA = .ok tGood ∧
    50 < tGood.text.length ∧ accept50 tGood = some tGood := by
  have hrun : fetchYouTubeTranscript wNoKey vidA = .ok tGood := by rfl
  have hlen : 50 < tGood.text.length :=
    acceptance_check_correct.1 wNoKey vidA tGood hrun
  exact ⟨hrun, hlen, acceptance_check_correct.2.2.2.1 tGood hlen⟩

/-! ### Claim C1: strategy failures and the pipeline -/

/-- Claim C1 is false: a network failure *thrown* while fetching the
video's canonical page escapes to the outer catch and aborts the whole
pipeline — the remaining strategies are not attempted, even though the
direct-endpoint strategy would have produced an acceptable transcript. -/
theorem strategy_advance_counterexample :
    wWatchThrown.fetch (watchUrl vidA) = .thrown ∧
    strategy2 wWatchThrown vidA = .ok (some tGood) ∧
    50 < tGood.text.length ∧
    fetchYouTubeTranscript wWatchThrown vidA = .error pipelineErrMsg := by
  exact ⟨by decide, by rfl, by decide, by rfl⟩

/-- Claim C1 amended: a strategy failure signalled by a non-ok HTTP
response does advance the pipeline to the next strategy, and a network
failure thrown during a per-candidate fetch of the direct-endpoint
strategy advances to the next candidate; but an exception thrown while
fetching the canonical page propagates to the outer handler and aborts
the pipeline. -/
theorem strategy_advance_amended :
    (∀ w v b t, w.fetch (watchUrl v) = .resp false b →
      strategy2 w v = .ok (some t) → fetchYouTubeTranscript w v = .ok t) ∧
    (∀ w v, w.fetch (watchUrl v) = .thrown →
      fetchYouTubeTranscript w v = .error pipelineErrMsg) ∧
    (∀ w url, w.fetch url = .thrown → attemptStep w url = none) := by
  refine ⟨fun w v b t hw h2 => ?_, fun w v hw => ?_, fun w url hw => ?_⟩
  · have h1 : strategy1 w v = .ok none := by
      unfold strategy1
      rw [hw]
      rfl
    unfold fetchYouTubeTranscript runPipeline
    rw [h1, h2]
  · have h1 : strategy1 w v = .error () := by
      unfold strategy1
      rw [hw]
    unfold fetchYouTubeTranscript runPipeline
    rw [h1]
  · unfold attemptStep
    rw [hw]

theorem strategy_advance_amended_witness :
    fetchYouTubeTranscript wWatchNotOk vidA = .ok tGood ∧
    attemptStep wWatchThrown (watchUrl vidA) = none :=
  ⟨strategy_advance_amended.1 wWatchNotOk vidA "" tGood (by decide) (by rfl),
   strategy_advance_amended.2.2 wWatchThrown (watchUrl vidA) (by decide)⟩

/-! ### Claim C2: strategy order -/

def vidB : String := "bbbbbbbbbbb"

/-- A canonical page carrying both an embedded caption-track list (which
the historical variant would extract) and the innertube API key. -/
def htmlEmbedded : String :=
  "<html>\"INNERTUBE_API_KEY\":\"KEY1\" \"captionTracks\":[\"x\"] tail</html>"

/-- A `JSON.parse` oracle defined on the strings this page makes the code
parse. -/
def jsonEmbedded : String → Option Json :=
  fun s => if s == "[\"x\"]" then some (.arr [.str "x"]) else none

def embBase : String → FetchResult := fun u =>
  if u == watchUrl vidB then .resp true htmlEmbedded
  else if u == timedtextUrl vidB ⟨"en", "asr", "srv3", ""⟩ then .resp true xmlGood
  else .resp false ""

/-- The player endpoint throws. -/
def wPlayerThrown : World :=
  ⟨fun u => if u == playerUrl "KEY1" then .thrown else embBase u, jsonEmbedded⟩

/-- Identical world except the player endpoint answers non-ok. -/
def wPlayerNotOk : World :=
  ⟨fun u => if u == playerUrl "KEY1" then .resp false "" else embBase u,
   jsonEmbedded⟩

/-- Claim C2 is false: the current pipeline has no embedded-metadata
strategy.  With a canonical page whose embedded caption-track list is
non-empty, the run still consults the internal player endpoint first: its
response alone decides between aborting (thrown) and falling back to the
timedtext attempts, in two worlds that differ on no other request. -/
theorem embedded_first_counterexample :
    (embeddedCaptionTracks wPlayerThrown htmlEmbedded).isEmpty = false ∧
    wPlayerThrown.fetch (watchUrl vidB) = .resp true htmlEmbedded ∧
    wPlayerThrown.fetch (playerUrl "KEY1") = .thrown ∧
    (∀ u, u ≠ playerUrl "KEY1" →
      wPlayerThrown.fetch u = wPlayerNotOk.fetch u) ∧
    wPlayerThrown.json = wPlayerNotOk.json ∧
    fetchYouTubeTranscript wPlayerThrown vidB = .error pipelineErrMsg ∧
    fetchYouTubeTranscript wPlayerNotOk vidB = .ok tGood := by
  refine ⟨by decide, by decide, by decide, fun u hu => ?_, rfl, by rfl,
    by rfl⟩
  have hne : (u == playerUrl "KEY1") = false := beq_eq_false_iff_ne.2 hu
  show (if u == playerUrl "KEY1" then FetchResult.thrown else embBase u) =
    (if u == playerUrl "KEY1" then FetchResult.resp false "" else embBase u)
  rw [hne]
  simp

/-- Claim C2 amended: the pipeline attempts the internal-player-API
strategy first — the canonical page is fetched only for the API key and
client version, and any caption metadata embedded in the page is ignored
(the embedded-metadata extraction exists only in a historical variant of
the function); when no key is found the pipeline proceeds directly to
the direct-endpoint (timedtext) strategy. -/
theorem player_first_amended :
    (∀ w v html k, w.fetch (watchUrl v) = .resp true html →
      captureKey html = some k → w.fetch (playerUrl k) = .thrown →
      fetchYouTubeTranscript w v = .error pipelineErrMsg) ∧
    (∀ w v html t, w.fetch (watchUrl v) = .resp true html →
      captureKey html = none → strategy2 w v = .ok (some t) →
      fetchYouTubeTranscript w v = .ok t) := by
  constructor
  · intro w v html k hw hk hp
    have h1 : strategy1 w v = .error () := by
      simp [strategy1, hw, hk, hp]
    unfold fetchYouTubeTranscript runPipeline
    rw [h1]
  · intro w v html t hw hk h2
    have h1 : strategy1 w v = .ok none := by
      simp [strategy1, hw, hk]
    unfold fetchYouTubeTranscript runPipeline
    rw [h1, h2]

theorem player_first_amended_witness :
    fetchYouTubeTranscript wPlayerThrown vidB = .error pipelineErrMsg ∧
    fetchYouTubeTranscript wNoKey vidA = .ok tGood :=
  ⟨player_first_amended.1 wPlayerThrown vidB htmlEmbedded "KEY1"
      (by decide) (by decide) (by decide),
   player_first_amended.2 wNoKey vidA "<html>nokey</html>" tGood
      (by decide) (by decide) (by rfl)⟩

end YT
